import Mathlib

/-!
Verification of `indra/statements/concept.py` (the `Concept` class:
grounding resolution, matching keys, ontology relationships and
JSON (de)serialization) against its natural-language specification.

The Python code is shallowly embedded: Python runtime values that can
appear inside a `db_refs` mapping are modelled by the inductive `PyVal`
(strings, numbers, lists, tuples and `None`; numeric scores are idealized
as rationals), Python exceptions by the error type `PyErr` threaded
through `Except`, and the mutable-dict aliasing of `to_json`/`_from_json`
by explicit state passing (`Concept.from_record_effect`).
-/

namespace Indra

/-- Python exceptions that the embedded code can raise. -/
inductive PyErr where
  | typeError
  | indexError
deriving DecidableEq, Repr

/-- Python runtime value, restricted to the shapes that can occur inside a
`db_refs` mapping: identifier strings, numeric scores (idealized as exact
rationals), lists, tuples and `None`. -/
inductive PyVal where
  | str (s : String)
  | num (q : ℚ)
  | list (xs : List PyVal)
  | tuple (xs : List PyVal)
  | none

mutual

/-- Decidable equality for `PyVal` (handwritten because `deriving` does not
handle the nested `List PyVal`). -/
def pyValDecEq : (a b : PyVal) → Decidable (a = b)
  | .str a, .str b =>
    match String.decEq a b with
    | isTrue h => isTrue (by rw [h])
    | isFalse h => isFalse (fun he => h (by injection he))
  | .num a, .num b =>
    match decEq a b with
    | isTrue h => isTrue (by rw [h])
    | isFalse h => isFalse (fun he => h (by injection he))
  | .list a, .list b =>
    match pyValListDecEq a b with
    | isTrue h => isTrue (by rw [h])
    | isFalse h => isFalse (fun he => h (by injection he))
  | .tuple a, .tuple b =>
    match pyValListDecEq a b with
    | isTrue h => isTrue (by rw [h])
    | isFalse h => isFalse (fun he => h (by injection he))
  | .none, .none => isTrue rfl
  | .str _, .num _ => isFalse (fun h => by injection h)
  | .str _, .list _ => isFalse (fun h => by injection h)
  | .str _, .tuple _ => isFalse (fun h => by injection h)
  | .str _, .none => isFalse (fun h => by injection h)
  | .num _, .str _ => isFalse (fun h => by injection h)
  | .num _, .list _ => isFalse (fun h => by injection h)
  | .num _, .tuple _ => isFalse (fun h => by injection h)
  | .num _, .none => isFalse (fun h => by injection h)
  | .list _, .str _ => isFalse (fun h => by injection h)
  | .list _, .num _ => isFalse (fun h => by injection h)
  | .list _, .tuple _ => isFalse (fun h => by injection h)
  | .list _, .none => isFalse (fun h => by injection h)
  | .tuple _, .str _ => isFalse (fun h => by injection h)
  | .tuple _, .num _ => isFalse (fun h => by injection h)
  | .tuple _, .list _ => isFalse (fun h => by injection h)
  | .tuple _, .none => isFalse (fun h => by injection h)
  | .none, .str _ => isFalse (fun h => by injection h)
  | .none, .num _ => isFalse (fun h => by injection h)
  | .none, .list _ => isFalse (fun h => by injection h)
  | .none, .tuple _ => isFalse (fun h => by injection h)

/-- Decidable equality for lists of `PyVal`. -/
def pyValListDecEq : (as bs : List PyVal) → Decidable (as = bs)
  | [], [] => isTrue rfl
  | [], _ :: _ => isFalse (fun h => by injection h)
  | _ :: _, [] => isFalse (fun h => by injection h)
  | a :: as, b :: bs =>
    match pyValDecEq a b, pyValListDecEq as bs with
    | isTrue h1, isTrue h2 => isTrue (by rw [h1, h2])
    | isFalse h1, _ => isFalse (fun he => h1 (by injection he))
    | isTrue _, isFalse h2 => isFalse (fun he => h2 (by injection he))

end

instance : DecidableEq PyVal := pyValDecEq

/-- Python truthiness (`bool(v)`): a string is truthy when non-empty, a number
when non-zero, a list or tuple when non-empty; `None` is falsy. -/
def pyTruthy : PyVal → Bool
  | .str s => !s.data.isEmpty
  | .num q => decide (q ≠ 0)
  | .list xs => !xs.isEmpty
  | .tuple xs => !xs.isEmpty
  | .none => false

/-- Python subscription `v[i]` for a non-negative index: indexing a string
yields a one-character string, indexing a list or tuple yields the element;
an out-of-range index raises `IndexError`, and subscripting a number or
`None` raises `TypeError`. -/
def pySubscript (v : PyVal) (i : Nat) : Except PyErr PyVal :=
  match v with
  | .str s =>
    match s.data[i]? with
    | some ch => .ok (.str ch.toString)
    | Option.none => .error .indexError
  | .list xs =>
    match xs[i]? with
    | some x => .ok x
    | Option.none => .error .indexError
  | .tuple xs =>
    match xs[i]? with
    | some x => .ok x
    | Option.none => .error .indexError
  | _ => .error .typeError

mutual

/-- Python equality `a == b` on embedded values: strings, numbers and `None`
compare directly, lists and tuples compare element-wise, and values of
different kinds (including a list against a tuple) compare unequal.
`==` never raises on these shapes. -/
def pyEq : PyVal → PyVal → Bool
  | .str a, .str b => a == b
  | .num a, .num b => a == b
  | .list a, .list b => pyEqList a b
  | .tuple a, .tuple b => pyEqList a b
  | .none, .none => true
  | _, _ => false

/-- Element-wise Python equality of two value sequences. -/
def pyEqList : List PyVal → List PyVal → Bool
  | [], [] => true
  | a :: as, b :: bs => pyEq a b && pyEqList as bs
  | _, _ => false

end

mutual

/-- Python three-way comparison on embedded values: strings compare
lexicographically, numbers numerically, lists with lists and tuples with
tuples lexicographically; any other combination (string against number,
list against tuple, anything against `None`) raises `TypeError`, as in
Python 3. -/
def pyCompare : PyVal → PyVal → Except PyErr Ordering
  | .str a, .str b =>
    .ok (if a < b then Ordering.lt else if b < a then Ordering.gt else Ordering.eq)
  | .num a, .num b =>
    .ok (if a < b then Ordering.lt else if b < a then Ordering.gt else Ordering.eq)
  | .list a, .list b => pyCompareList a b
  | .tuple a, .tuple b => pyCompareList a b
  | _, _ => .error .typeError

/-- Lexicographic three-way comparison of value sequences, propagating
`TypeError` from incomparable elements. -/
def pyCompareList : List PyVal → List PyVal → Except PyErr Ordering
  | [], [] => .ok Ordering.eq
  | [], _ :: _ => .ok Ordering.lt
  | _ :: _, [] => .ok Ordering.gt
  | a :: as, b :: bs =>
    match pyCompare a b with
    | .ok Ordering.eq => pyCompareList as bs
    | .ok o => .ok o
    | .error e => .error e

end

/-- Hexadecimal digit character for a value below 16. -/
def hexDigitChar (n : Nat) : Char :=
  if n < 10 then Char.ofNat (48 + n) else Char.ofNat (87 + n)

/-- Escaping of one character inside a Python string repr delimited by the
quote character `q`: backslash and the delimiter are backslash-escaped,
newline, carriage return and tab use their mnemonic escapes, other control
characters (and DEL) use a hexadecimal escape, and everything else is kept
verbatim. (CPython additionally consults Unicode printability tables for
non-ASCII code points; those are treated as printable here.) -/
def pyCharEscape (q : Char) (c : Char) : List Char :=
  if c = ('\\') then ['\\', '\\']
  else if c = q then ['\\', q]
  else if c = ('\n') then ['\\', 'n']
  else if c = ('\r') then ['\\', 'r']
  else if c = ('\t') then ['\\', 't']
  else if c.toNat < 32 || c.toNat == 127 then
    ['\\', 'x', hexDigitChar (c.toNat / 16), hexDigitChar (c.toNat % 16)]
  else [c]

/-- The delimiter Python's repr picks for a string: single quotes, except
double quotes for a string containing a single quote but no double
quote. -/
def pyQuote (s : String) : Char :=
  if s.data.contains ('\'') && !(s.data.contains ('"')) then ('"') else ('\'')

/-- The escaped body of a string repr: the concatenation of the
per-character escape blocks under the delimiter `q`. -/
def escBody (q : Char) (l : List Char) : List Char :=
  (l.map (pyCharEscape q)).flatten

/-- Python `repr` of a string: the escaped body between two copies of the
chosen delimiter. -/
def pyReprStr (s : String) : String :=
  ⟨pyQuote s :: (escBody (pyQuote s) s.data ++ [pyQuote s])⟩

mutual

/-- Python `repr` of an embedded value. Strings use `pyReprStr`, `None`
prints as `None`, lists print bracketed and comma-separated, tuples print
parenthesized with the one-element trailing comma. The textual form of a
numeric score is idealized (scores are exact rationals here, while CPython
prints shortest-roundtrip floats); no theorem below depends on it. -/
def pyRepr : PyVal → String
  | .str s => pyReprStr s
  | .num q => toString q
  | .none => "None"
  | .list xs => "[" ++ pyReprSep xs ++ "]"
  | .tuple [x] => "(" ++ pyRepr x ++ ",)"
  | .tuple xs => "(" ++ pyReprSep xs ++ ")"

/-- Comma-and-space separated sequence of value reprs. -/
def pyReprSep : List PyVal → String
  | [] => ""
  | [x] => pyRepr x
  | x :: xs => pyRepr x ++ ", " ++ pyReprSep xs

end

/-- Python `str(v)`: the identity on strings, `repr` on every other shape
appearing here. -/
def pyStr : PyVal → String
  | .str s => s
  | v => pyRepr v

/-- Python `tuple(v)`: a string yields the tuple of its one-character
strings, a list or tuple yields a tuple with the same elements, and a
non-iterable value (number, `None`) raises `TypeError`. -/
def pyTuple (v : PyVal) : Except PyErr PyVal :=
  match v with
  | .str s => .ok (.tuple (s.data.map (fun ch => .str ch.toString)))
  | .list xs => .ok (.tuple xs)
  | .tuple xs => .ok (.tuple xs)
  | _ => .error .typeError

/-- Insertion of a `(key, value)` pair into a descending key-sorted list,
placed after every entry whose key is not smaller, so that entries with
equal keys keep their original relative order (CPython's sort is stable,
and `reverse=True` preserves stability). Key comparisons can raise
`TypeError`. -/
def insertByKeyDesc (p : PyVal × PyVal) :
    List (PyVal × PyVal) → Except PyErr (List (PyVal × PyVal))
  | [] => .ok [p]
  | q :: rest => do
    if (← pyCompare q.1 p.1) = Ordering.lt then
      pure (p :: q :: rest)
    else
      pure (q :: (← insertByKeyDesc p rest))

/-- Decoration step of Python's key-based sort: compute `(x[1], x)` for
each element, left to right, so the first failing subscription raises, as
in CPython, which computes all keys before comparing. -/
def decorate : List PyVal → Except PyErr (List (PyVal × PyVal))
  | [] => .ok []
  | x :: xs => do pure (((← pySubscript x 1), x) :: (← decorate xs))

/-- Python `sorted(xs, key=lambda x: x[1], reverse=True)`: decorate with
the keys, then stably sort by descending key and drop the keys. -/
def pySortedKeyDesc (xs : List PyVal) : Except PyErr (List PyVal) := do
  let keyed ← decorate xs
  let srt ← keyed.foldlM (fun acc p => insertByKeyDesc p acc) []
  pure (srt.map (fun p => p.2))

/-- The module-level default namespace priority order of
`indra/statements/concept.py`. -/
def default_ns_order : List String := ["WM", "UN", "HUME", "SOFIA", "CWMS"]

/-- A concept. `pyType` records the Python runtime class of the object (the
source's `refinement_of` compares `type(self)` with `type(other)`;
instances created by this module have class `Concept`, subclasses living
elsewhere in the repository have other classes). `db_refs` is the
insertion-ordered dictionary of database references. -/
structure Concept where
  pyType : String
  name : String
  db_refs : List (String × PyVal)
deriving DecidableEq

/-- Python `db_refs.get(ns)`: the value of the first entry with the given
key, if any. -/
def dbLookup (db : List (String × PyVal)) (ns : String) : Option PyVal :=
  (db.find? (fun kv => kv.1 == ns)).map (fun kv => kv.2)

/-- The body of `get_grounding`'s branch for one truthy value `db_id`
(`concept.py` lines 52-57):

    if isinstance(db_id, (list, tuple)):
        db_id = db_id[0]
        if isinstance(db_id, (list, tuple)):
            db_id = sorted(db_id, key=lambda x: x[1], reverse=True)[0][0]

Note that `sorted` is applied to `db_id[0]` (the first element of the
candidate list), not to the candidate list itself. `extractTop` is the
expression `sorted(db_id, key=lambda x: x[1], reverse=True)[0][0]`. -/
def extractTop (xs : List PyVal) : Except PyErr PyVal := do
  let srt ← pySortedKeyDesc xs
  let top ← pySubscript (.list srt) 0
  pySubscript top 0

/-- The inner branch for a first element that is itself a sequence: apply
the (misplaced) scored sort to it and take `[0][0]`. -/
def extractSeq (v : PyVal) : Except PyErr PyVal := do
  let d ← pySubscript v 0
  match d with
  | .list xs => extractTop xs
  | .tuple xs => extractTop xs
  | _ => pure d

def extractId (v : PyVal) : Except PyErr PyVal :=
  match v with
  | .list _ => extractSeq v
  | .tuple _ => extractSeq v
  | _ => .ok v

/-- The scanning loop of `get_grounding` (`concept.py` lines 48-58): walk
the namespace order, skip namespaces whose value is absent or falsy, and
return `(db_ns, extracted id)` for the first namespace with a truthy
value; with the order exhausted, return `(None, None)`. -/
def ground_scan (db : List (String × PyVal)) : List String → Except PyErr (PyVal × PyVal)
  | [] => .ok (.none, .none)
  | ns :: rest =>
    match dbLookup db ns with
    | Option.none => ground_scan db rest
    | some v =>
      if pyTruthy v then (extractId v).map (fun i => (.str ns, i))
      else ground_scan db rest

/-- `Concept.get_grounding(self, ns_order=None)`. A falsy `ns_order`
argument (Python `None` or the empty list, both modelled by `[]`) selects
the module-level `default_ns_order`. -/
def Concept.get_grounding (c : Concept) (ns_order : List String) :
    Except PyErr (PyVal × PyVal) :=
  ground_scan c.db_refs (if ns_order.isEmpty then default_ns_order else ns_order)

/-- `Concept.entity_matches_key`: resolve the grounding; with both
components falsy the display name is the key, otherwise the key is the
Python string of the `(db_ns, db_id)` tuple. -/
def Concept.entity_matches_key (c : Concept) : Except PyErr PyVal := do
  let g ← c.get_grounding []
  if !(pyTruthy g.1) && !(pyTruthy g.2) then
    pure (.str c.name)
  else
    pure (.str (pyStr (.tuple [g.1, g.2])))

/-- `Concept.matches_key`: `str` of the entity key. -/
def Concept.matches_key (c : Concept) : Except PyErr String := do
  let key ← c.entity_matches_key
  pure (pyStr key)

/-- `Concept.entity_matches`: Python equality of the two entity keys. -/
def Concept.entity_matches (c other : Concept) : Except PyErr Bool := do
  let k1 ← c.entity_matches_key
  let k2 ← other.entity_matches_key
  pure (pyEq k1 k2)

/-- `Concept.matches`: equality of the two `matches_key` strings. -/
def Concept.matches (c other : Concept) : Except PyErr Bool := do
  let k1 ← c.matches_key
  let k2 ← other.matches_key
  pure (k1 == k2)

/-- The external ontology collaborator: two boolean queries over resolved
groundings. -/
structure Ontology where
  isa : PyVal → PyVal → PyVal → PyVal → Bool
  is_opposite : PyVal → PyVal → PyVal → PyVal → Bool

/-- `Concept.isa(self, other, ontology)`: resolve both groundings; with any
of the four components falsy return `False`, otherwise return the
ontology's `isa` answer. -/
def Concept.isa (c other : Concept) (ontology : Ontology) : Except PyErr Bool := do
  let s ← c.get_grounding []
  let o ← other.get_grounding []
  if !(pyTruthy s.1 && pyTruthy s.2 && pyTruthy o.1 && pyTruthy o.2) then
    pure false
  else
    pure (ontology.isa s.1 s.2 o.1 o.2)

/-- `Concept.is_opposite(self, other, ontology)`: same guard as `isa`,
delegating to the ontology's `is_opposite`. -/
def Concept.is_opposite (c other : Concept) (ontology : Ontology) : Except PyErr Bool := do
  let s ← c.get_grounding []
  let o ← other.get_grounding []
  if !(pyTruthy s.1 && pyTruthy s.2 && pyTruthy o.1 && pyTruthy o.2) then
    pure false
  else
    pure (ontology.is_opposite s.1 s.2 o.1 o.2)

/-- `Concept.refinement_of(self, other, ontology, entities_refined=False)`:
mismatching runtime types give `False`; then `entities_refined`, then
`entity_matches`, then `isa` are tried in order, the first success giving
`True`. -/
def Concept.refinement_of (c other : Concept) (ontology : Ontology)
    (entities_refined : Bool) : Except PyErr Bool := do
  if c.pyType ≠ other.pyType then
    pure false
  else if entities_refined then
    pure true
  else do
    if (← c.entity_matches other) then
      pure true
    else if (← c.isa other ontology) then
      pure true
    else
      pure false

/-- The serialized record produced by `to_json` and consumed by
`_from_json`: an ordered JSON object with a `name` field and a `db_refs`
field, either possibly absent on input. -/
structure Record where
  name : Option String
  db_refs : Option (List (String × PyVal))
deriving DecidableEq

/-- `Concept.to_json`: the ordered record with the concept's name first and
its `db_refs` mapping second. (In Python the record holds the concept's own
dictionary, not a copy; `Concept.from_record_effect` below accounts for
that aliasing.) -/
def Concept.to_json (c : Concept) : Record :=
  ⟨some c.name, some c.db_refs⟩

/-- The list comprehension `[tuple(v) for v in val]`: `tuple` applied to
every element, left to right, the first failure raising. -/
def mapTuple : List PyVal → Except PyErr (List PyVal)
  | [] => .ok []
  | x :: xs => do pure ((← pyTuple x) :: (← mapTuple xs))

/-- The per-value rewrite of `_from_json` (`concept.py` lines 116-118): a
list value is replaced by the list of `tuple(v)` for its elements `v`;
every other value is kept. -/
def normVal (val : PyVal) : Except PyErr PyVal :=
  match val with
  | .list xs => (mapTuple xs).map PyVal.list
  | v => pure v

/-- The whole-dictionary rewrite of `_from_json`: `normVal` applied to
every value, keys and order kept. -/
def norm_db : List (String × PyVal) → Except PyErr (List (String × PyVal))
  | [] => .ok []
  | kv :: rest => do pure ((kv.1, ← normVal kv.2) :: (← norm_db rest))

/-- `Concept._from_json` as a pure function of the record's value: a record
with a missing or falsy (empty) name yields `None` (after logging an error,
an effect outside this model) and no concept is built; otherwise the
`db_refs` mapping (defaulting to empty when absent) is rewritten with
`norm_db` and a `Concept` is constructed. -/
def Concept._from_json (json_dict : Record) : Except PyErr (Option Concept) :=
  match json_dict.name with
  | Option.none => .ok Option.none
  | some nm =>
    if nm = "" then .ok Option.none
    else do
      let db ← norm_db (json_dict.db_refs.getD [])
      pure (some ⟨"Concept", nm, db⟩)

/-- `Concept._from_json` with its heap effect made explicit: the rewrite
`db_refs[key] = [tuple(v) for v in val]` mutates the very dictionary held
by the input record, so the result is returned together with the record as
it stands after the call. A record rejected for a falsy name is returned
untouched (the loop is never reached), and a record without a `db_refs`
field is also untouched (the loop then runs over a fresh empty dict). -/
def Concept.from_record_effect (json_dict : Record) :
    Except PyErr (Option Concept × Record) :=
  match json_dict.name with
  | Option.none => .ok (Option.none, json_dict)
  | some nm =>
    if nm = "" then .ok (Option.none, json_dict)
    else
      match json_dict.db_refs with
      | Option.none => .ok (some ⟨"Concept", nm, []⟩, json_dict)
      | some db => do
        let db' ← norm_db db
        pure (some ⟨"Concept", nm, db'⟩, ⟨some nm, some db'⟩)

/-- The composite `Concept._from_json(concept.to_json())`, tracking the
aliasing of `to_json`: the record's `db_refs` is the concept's own
dictionary, so after the call the concept's `db_refs` is whatever the
record's dictionary was mutated into. Returns the original concept as it
stands after the call, together with the deserialization result. -/
def Concept.round_trip_effect (c : Concept) : Except PyErr (Concept × Option Concept) := do
  let (res, r) ← Concept.from_record_effect c.to_json
  pure (⟨c.pyType, c.name, r.db_refs.getD c.db_refs⟩, res)

/-- Specification-level description of the resolver (spec section 4.1,
written from the spec's words, for comparison with the code): find the
first namespace of the priority order whose `db_refs` value is present and
truthy; with none, resolution is `(None, None)`, otherwise it is that
namespace paired with the identifier extracted from its value. -/
def first_grounding_spec (db : List (String × PyVal)) (order : List String) :
    Except PyErr (PyVal × PyVal) :=
  match order.find? (fun ns =>
      match dbLookup db ns with
      | some v => pyTruthy v
      | Option.none => false) with
  | Option.none => .ok (.none, .none)
  | some ns =>
    match dbLookup db ns with
    | some v => (extractId v).map (fun i => (.str ns, i))
    | Option.none => .ok (.none, .none)

/-- A `db_refs` value of one of the two round-trippable shapes: a scalar
identifier string, or a list of `(identifier, score)` pairs. -/
def GoodVal (v : PyVal) : Prop :=
  (∃ s, v = PyVal.str s) ∨
  (∃ xs, v = PyVal.list xs ∧ ∀ x ∈ xs, ∃ a q, x = PyVal.tuple [.str a, .num q])

/-- The scanning loop of the code coincides with the spec-level
first-truthy-namespace description, for every dictionary and order. -/
theorem ground_scan_eq_spec (db : List (String × PyVal)) :
    ∀ order : List String, ground_scan db order = first_grounding_spec db order := by
  intro order
  induction order with
  | nil => rfl
  | cons ns rest ih =>
    cases h : dbLookup db ns with
    | none =>
      simp only [ground_scan, first_grounding_spec, h, ih]
      rw [List.find?_cons_of_neg _ (by simp [h])]
    | some v =>
      cases ht : pyTruthy v with
      | false =>
        simp only [ground_scan, first_grounding_spec, h, ht, ih]
        rw [List.find?_cons_of_neg _ (by simp [h, ht])]
        simp
      | true =>
        simp only [ground_scan, first_grounding_spec, h, ht]
        rw [List.find?_cons_of_pos _ (by simp [h, ht])]
        simp [h]

/-- C2: resolution scans the priority order in sequence and returns the
grounding extracted from the first namespace whose `db_refs` value is
present and truthy, returning `(None, None)` when no namespace qualifies
(the spec-side description `first_grounding_spec`); a falsy `ns_order`
argument selects the default order `[WM, UN, HUME, SOFIA, CWMS]`; and on
`db_refs = {"UN": "x", "WM": "y"}` the default order yields
`("WM", "y")`. -/
theorem C2_priority_scan :
    (∀ (c : Concept) (ns_order : List String),
      c.get_grounding ns_order =
        first_grounding_spec c.db_refs
          (if ns_order.isEmpty then default_ns_order else ns_order))
    ∧ default_ns_order = ["WM", "UN", "HUME", "SOFIA", "CWMS"]
    ∧ Concept.get_grounding ⟨"Concept", "c", [("UN", .str ("x")), ("WM", .str ("y"))]⟩ []
        = .ok (.str ("WM"), .str ("y")) := by
  refine ⟨fun c ns_order => ?_, rfl, rfl⟩
  exact ground_scan_eq_spec c.db_refs _

/-- C1: on the spec's own scored-candidate example
`db_refs = {"WM": [("a", 0.3), ("b", 0.9)]}` the code does not return
`("WM", "b")`: `sorted(..., key=lambda x: x[1], reverse=True)` is applied
to `db_id[0]`, the first pair `("a", 0.3)`, and computing the key of its
first element indexes the one-character string `"a"` at position 1, so
resolution raises `IndexError`. -/
theorem C1_scored_resolution_raises :
    Concept.get_grounding
      ⟨"Concept", "c",
        [("WM", .list [.tuple [.str ("a"), .num (3/10)],
                       .tuple [.str ("b"), .num (9/10)]])]⟩ []
      = .error .indexError := rfl

/-- C3 counterexample: with `db_refs = {"WM": [""], "UN": "x"}` the WM value
is truthy (a non-empty list) but the extracted identifier is the falsy
empty string; the code returns `("WM", "")` immediately instead of
continuing to the UN namespace as the claim says. -/
theorem C3_falsy_id_not_skipped :
    Concept.get_grounding
        ⟨"Concept", "c", [("WM", .list [.str ("")]), ("UN", .str ("x"))]⟩ []
      = .ok (.str ("WM"), .str ("")) ∧
    (Except.ok (PyVal.str ("WM"), PyVal.str ("")) : Except PyErr (PyVal × PyVal))
      ≠ .ok (.str ("UN"), .str ("x")) := by
  exact ⟨rfl, by simp⟩

/-- C3 amended: once a namespace with a truthy value is found, resolution
returns the extracted identifier immediately even when that identifier is
falsy: whatever further entries the dictionary holds, a first-priority WM
value `["" , ...]` resolves to `("WM", "")` and no later namespace is
consulted. -/
theorem C3_falsy_id_returned (tl : List PyVal) (rest : List (String × PyVal))
    (nm : String) :
    Concept.get_grounding ⟨"Concept", nm, ("WM", .list (.str ("") :: tl)) :: rest⟩ []
      = .ok (.str ("WM"), .str ("")) := by
  simp [Concept.get_grounding, default_ns_order, ground_scan, dbLookup,
    pyTruthy, extractId, extractSeq, pySubscript,
    Except.map, Bind.bind, Except.bind, pure, Except.pure]

/-- C9: a record whose `name` field is missing or empty deserializes to the
null sentinel: `_from_json` returns `None` without raising (the
`ValidationError` is only logged). -/
theorem C9_missing_name_yields_none (r : Record)
    (h : r.name = Option.none ∨ r.name = some "") :
    Concept._from_json r = .ok Option.none := by
  obtain ⟨nm, db⟩ := r
  rcases h with h | h <;> simp only at h <;> subst h <;>
    simp [Concept._from_json]

/-- C9 witness: the concrete record with an empty name (and a non-trivial
`db_refs`) deserializes to `None`. -/
theorem C9_missing_name_yields_none_witness :
    Concept._from_json ⟨some (""), some [("WM", .str ("x"))]⟩ = .ok Option.none :=
  C9_missing_name_yields_none ⟨some (""), some [("WM", .str ("x"))]⟩ (Or.inr rfl)

/-- Helper: `tuple(v)` rebuilds a tuple with the same elements, so a list
whose elements are all tuples maps through `tuple` unchanged. -/
theorem mapTuple_of_tuples (xs : List PyVal)
    (h : ∀ x ∈ xs, ∃ ys, x = PyVal.tuple ys) : mapTuple xs = .ok xs := by
  induction xs with
  | nil => rfl
  | cons x rest ih =>
    obtain ⟨ys, rfl⟩ := h _ (List.mem_cons_self _ _)
    have hrest := ih (fun x hx => h x (List.mem_cons_of_mem _ hx))
    simp [mapTuple, pyTuple, hrest, Bind.bind, Except.bind, pure, Except.pure]

/-- Helper: the deserialization rewrite keeps a scalar-or-pair-sequence
value unchanged. -/
theorem normVal_of_goodVal (v : PyVal) (h : GoodVal v) : normVal v = .ok v := by
  rcases h with ⟨s, rfl⟩ | ⟨xs, rfl, hxs⟩
  · rfl
  · have hmap := mapTuple_of_tuples xs (fun x hx => by
      obtain ⟨a, q, rfl⟩ := hxs x hx
      exact ⟨_, rfl⟩)
    simp [normVal, hmap, Except.map]

/-- Helper: the whole-dictionary rewrite keeps a dictionary of
scalar-or-pair-sequence values unchanged. -/
theorem norm_db_of_goodVals (db : List (String × PyVal))
    (h : ∀ kv ∈ db, GoodVal kv.2) : norm_db db = .ok db := by
  induction db with
  | nil => rfl
  | cons kv rest ih =>
    have h1 := normVal_of_goodVal kv.2 (h kv (List.mem_cons_self _ _))
    have h2 := ih (fun kv hkv => h kv (List.mem_cons_of_mem _ hkv))
    simp [norm_db, h1, h2, Bind.bind, Except.bind, pure, Except.pure]

/-- C8: serializing and deserializing a validly named concept whose
`db_refs` values are scalar strings or sequences of `(identifier, score)`
pairs yields a concept with the same name and the same `db_refs`. -/
theorem C8_round_trip (c : Concept) (hname : c.name ≠ "")
    (hvals : ∀ kv ∈ c.db_refs, GoodVal kv.2) :
    Concept._from_json c.to_json = .ok (some ⟨"Concept", c.name, c.db_refs⟩) := by
  have hdb := norm_db_of_goodVals c.db_refs hvals
  simp [Concept._from_json, Concept.to_json, hname, hdb,
    Bind.bind, Except.bind, pure, Except.pure]

/-- C8 witness: a concrete concept with one scalar grounding and one scored
candidate list survives the round trip unchanged. -/
theorem C8_round_trip_witness :
    Concept._from_json (Concept.to_json ⟨"Concept", "water shortage",
        [("UN", .str ("UN/entities/water")),
         ("WM", .list [.tuple [.str ("wm/a"), .num (3/10)],
                       .tuple [.str ("wm/b"), .num (9/10)]])]⟩)
      = .ok (some ⟨"Concept", "water shortage",
        [("UN", .str ("UN/entities/water")),
         ("WM", .list [.tuple [.str ("wm/a"), .num (3/10)],
                       .tuple [.str ("wm/b"), .num (9/10)]])]⟩) := by
  refine C8_round_trip _ (by decide) ?_
  intro kv hkv
  simp only [List.mem_cons, List.not_mem_nil, or_false] at hkv
  rcases hkv with rfl | rfl
  · exact Or.inl ⟨_, rfl⟩
  · refine Or.inr ⟨_, rfl, ?_⟩
    intro x hx
    simp only [List.mem_cons, List.not_mem_nil, or_false] at hx
    rcases hx with rfl | rfl
    · exact ⟨_, _, rfl⟩
    · exact ⟨_, _, rfl⟩

/-- Helper: a successful whole-dictionary rewrite maps each looked-up value
to its `normVal` image, preserving presence of keys. -/
theorem norm_db_lookup (db : List (String × PyVal)) :
    ∀ (db' : List (String × PyVal)) (k : String) (v : PyVal),
      norm_db db = .ok db' → dbLookup db k = some v →
      ∃ v', normVal v = .ok v' ∧ dbLookup db' k = some v' := by
  induction db with
  | nil => intro db' k v _ hv; simp [dbLookup] at hv
  | cons kv rest ih =>
    intro db' k v hdb hv
    cases hnv : normVal kv.2 with
    | error e =>
      simp [norm_db, hnv, Bind.bind, Except.bind] at hdb
    | ok v0 =>
      cases hrest : norm_db rest with
      | error e =>
        simp [norm_db, hnv, hrest, Bind.bind, Except.bind, pure, Except.pure] at hdb
      | ok rest' =>
        have hdb' : db' = (kv.1, v0) :: rest' := by
          simp only [norm_db] at hdb
          simp [hnv, hrest, Bind.bind, Except.bind, pure, Except.pure] at hdb
          exact hdb.symm
        subst hdb'
        cases hk : kv.1 == k with
        | true =>
          have hveq : v = kv.2 := by
            simp only [dbLookup] at hv
            rw [List.find?_cons_of_pos _ (by exact hk)] at hv
            simpa using hv.symm
          subst hveq
          refine ⟨v0, hnv, ?_⟩
          simp only [dbLookup]
          rw [List.find?_cons_of_pos _ (by exact hk)]
          rfl
        | false =>
          have hv' : dbLookup rest k = some v := by
            simp only [dbLookup] at hv ⊢
            rwa [List.find?_cons_of_neg _ (by simp [hk])] at hv
          obtain ⟨v', h1, h2⟩ := ih rest' k v hrest hv'
          refine ⟨v', h1, ?_⟩
          simp only [dbLookup] at h2 ⊢
          rwa [List.find?_cons_of_neg _ (by simp [hk])]

/-- C7 counterexample: a plain candidate list of scalar strings does not
pass through deserialization intact; the record
`name: "n", db_refs: {"WM": ["abc"]}` deserializes with the scalar string
`"abc"` exploded into the tuple of its characters. -/
theorem C7_scalar_strings_tupled :
    Concept._from_json ⟨some ("n"), some [("WM", .list [.str ("abc")])]⟩
      = .ok (some ⟨"Concept", "n",
          [("WM", .list [.tuple [.str ("a"), .str ("b"), .str ("c")]])]⟩) ∧
    (PyVal.list [.tuple [.str ("a"), .str ("b"), .str ("c")]]) ≠ .list [.str ("abc")] := by
  exact ⟨rfl, by decide⟩

/-- C7 amended: on deserialization, every element of a list-valued entry is
converted with `tuple(...)` — nested sequences become tuples, but scalar
strings become tuples of their one-character strings as well; the whole
mapping is rewritten value-wise through `normVal`. -/
theorem C7_from_json_tuples_every_element (nm : String)
    (db db' : List (String × PyVal)) (k : String) (xs : List PyVal)
    (hname : nm ≠ "") (hdb : norm_db db = .ok db')
    (hk : dbLookup db k = some (.list xs)) :
    Concept._from_json ⟨some nm, some db⟩ = .ok (some ⟨"Concept", nm, db'⟩) ∧
    ∃ ys, mapTuple xs = .ok ys ∧ dbLookup db' k = some (.list ys) := by
  constructor
  · simp [Concept._from_json, hname, hdb, Bind.bind, Except.bind, pure, Except.pure]
  · obtain ⟨v', hnv, hlook⟩ := norm_db_lookup db db' k _ hdb hk
    cases hmap : mapTuple xs with
    | error e =>
      simp [normVal, hmap, Except.map] at hnv
    | ok ys =>
      refine ⟨ys, rfl, ?_⟩
      simp only [normVal, hmap, Except.map, Except.ok.injEq] at hnv
      subst hnv
      exact hlook

/-- C7 amendment witness: concretely, `{"WM": [["x", 0.5]]}` has its inner
list turned into the pair `("x", 0.5)`, via the element-wise `tuple`
conversion. -/
theorem C7_from_json_tuples_every_element_witness :
    Concept._from_json ⟨some ("n"), some [("WM", .list [.list [.str ("x"), .num (1/2)]])]⟩
      = .ok (some ⟨"Concept", "n", [("WM", .list [.tuple [.str ("x"), .num (1/2)]])]⟩) ∧
    ∃ ys, mapTuple [PyVal.list [.str ("x"), .num (1/2)]] = .ok ys ∧
      dbLookup [("WM", PyVal.list [.tuple [.str ("x"), .num (1/2)]])] "WM"
        = some (.list ys) := by
  exact C7_from_json_tuples_every_element "n" _ _ "WM" _ (by decide) rfl rfl

/-- C10 counterexample: a concept with a list-valued `db_refs` entry but an
empty (falsy) name is not mutated by `from_record(to_record(c))`: the
loop that rewrites `db_refs` in place is never reached, the record's
dictionary — the concept's own — is untouched, and the result is the null
sentinel. -/
theorem C10_no_mutation_when_name_falsy :
    Concept.round_trip_effect ⟨"Concept", "", [("WM", .list [.str ("abc")])]⟩
      = .ok (⟨"Concept", "", [("WM", .list [.str ("abc")])]⟩, Option.none) := rfl

/-- C10 amended: for a concept with a truthy (non-empty) name, evaluating
`from_record(to_record(c))` rewrites the concept's own `db_refs` in place
to its `norm_db` image (every element of a list value replaced by its
`tuple` conversion); the mapping changes exactly when that image differs,
as for `{"WM": ["abc"]}`, which ends as `{"WM": [("a", "b", "c")]}`. -/
theorem C10_round_trip_normalizes_in_place :
    (∀ (c : Concept) (db' : List (String × PyVal)),
      c.name ≠ "" → norm_db c.db_refs = .ok db' →
      Concept.round_trip_effect c
        = .ok (⟨c.pyType, c.name, db'⟩, some ⟨"Concept", c.name, db'⟩))
    ∧ Concept.round_trip_effect ⟨"Concept", "n", [("WM", .list [.str ("abc")])]⟩
        = .ok (⟨"Concept", "n", [("WM", .list [.tuple [.str ("a"), .str ("b"), .str ("c")]])]⟩,
            some ⟨"Concept", "n", [("WM", .list [.tuple [.str ("a"), .str ("b"), .str ("c")]])]⟩)
    ∧ (PyVal.list [.tuple [.str ("a"), .str ("b"), .str ("c")]]) ≠ .list [.str ("abc")] := by
  refine ⟨?_, rfl, by decide⟩
  intro c db' hname hdb
  simp [Concept.round_trip_effect, Concept.from_record_effect, Concept.to_json,
    hname, hdb, Bind.bind, Except.bind, pure, Except.pure]

/-- C10 amendment witness: the general in-place-normalization statement
applied to the concrete concept named `n` with `db_refs = {"WM": ["abc"]}`. -/
theorem C10_round_trip_normalizes_in_place_witness :
    Concept.round_trip_effect ⟨"Concept", "n", [("WM", .list [.str ("abc")])]⟩
      = .ok (⟨"Concept", "n", [("WM", .list [.tuple [.str ("a"), .str ("b"), .str ("c")]])]⟩,
          some ⟨"Concept", "n", [("WM", .list [.tuple [.str ("a"), .str ("b"), .str ("c")]])]⟩) :=
  C10_round_trip_normalizes_in_place.1
    ⟨"Concept", "n", [("WM", .list [.str ("abc")])]⟩
    [("WM", .list [.tuple [.str ("a"), .str ("b"), .str ("c")]])]
    (by decide) rfl

/-- C5: `isa` and `is_opposite` return `False` whenever either resolved
grounding has a falsy namespace or identifier — and then the result is the
same for every ontology, so the collaborator is never consulted; with all
four components truthy, the ontology's answer is returned verbatim. -/
theorem C5_isa_requires_full_grounding (a b : Concept) (gns gid hns hid : PyVal)
    (ha : a.get_grounding [] = .ok (gns, gid))
    (hb : b.get_grounding [] = .ok (hns, hid)) :
    ((pyTruthy gns && pyTruthy gid && pyTruthy hns && pyTruthy hid) = false →
      ∀ ontology : Ontology,
        a.isa b ontology = .ok false ∧ a.is_opposite b ontology = .ok false)
    ∧ ((pyTruthy gns && pyTruthy gid && pyTruthy hns && pyTruthy hid) = true →
      ∀ ontology : Ontology,
        a.isa b ontology = .ok (ontology.isa gns gid hns hid)
        ∧ a.is_opposite b ontology = .ok (ontology.is_opposite gns gid hns hid)) := by
  constructor
  · intro hfalsy ontology
    constructor <;>
      simp [Concept.isa, Concept.is_opposite, ha, hb, hfalsy,
        Bind.bind, Except.bind, pure, Except.pure]
  · intro htruthy ontology
    constructor <;>
      simp [Concept.isa, Concept.is_opposite, ha, hb, htruthy,
        Bind.bind, Except.bind, pure, Except.pure]

/-- C5 witness: an ungrounded concept against a grounded one gives `False`
for `isa` and `is_opposite` even under an ontology that answers `True` to
every query. -/
theorem C5_isa_requires_full_grounding_witness :
    Concept.isa ⟨"Concept", "a", []⟩ ⟨"Concept", "b", [("WM", .str ("x"))]⟩
        ⟨fun _ _ _ _ => true, fun _ _ _ _ => true⟩ = .ok false
    ∧ Concept.is_opposite ⟨"Concept", "a", []⟩ ⟨"Concept", "b", [("WM", .str ("x"))]⟩
        ⟨fun _ _ _ _ => true, fun _ _ _ _ => true⟩ = .ok false :=
  (C5_isa_requires_full_grounding ⟨"Concept", "a", []⟩
      ⟨"Concept", "b", [("WM", .str ("x"))]⟩
      .none .none (.str ("WM")) (.str ("x")) rfl rfl).1 rfl
    ⟨fun _ _ _ _ => true, fun _ _ _ _ => true⟩

/-- C6: `refinement_of` follows the short-circuit cascade: mismatching
concrete kinds give `False` at once; with matching kinds,
`entities_refined = true` gives `True` for every ontology; otherwise a
successful `entity_matches` gives `True` for every ontology; and when the
entities do not match the result is exactly that of `isa`. -/
theorem C6_refinement_cascade (a b : Concept) (ontology : Ontology)
    (entities_refined : Bool) :
    (a.pyType ≠ b.pyType →
      a.refinement_of b ontology entities_refined = .ok false)
    ∧ (a.pyType = b.pyType → entities_refined = true →
      a.refinement_of b ontology entities_refined = .ok true)
    ∧ (a.pyType = b.pyType → entities_refined = false →
      a.entity_matches b = .ok true →
      a.refinement_of b ontology entities_refined = .ok true)
    ∧ (a.pyType = b.pyType → entities_refined = false →
      a.entity_matches b = .ok false →
      a.refinement_of b ontology entities_refined = a.isa b ontology) := by
  refine ⟨fun hty => ?_, fun hty her => ?_, fun hty her hm => ?_,
    fun hty her hm => ?_⟩
  · simp [Concept.refinement_of, hty, pure, Except.pure]
  · subst her
    simp [Concept.refinement_of, hty, pure, Except.pure]
  · subst her
    simp [Concept.refinement_of, hty, hm, Bind.bind, Except.bind, pure, Except.pure]
  · subst her
    simp only [Concept.refinement_of, hty, ne_eq, not_true_eq_false, if_false,
      Bool.false_eq_true, hm]
    cases hi : a.isa b ontology with
    | error e =>
      simp [hi, Bind.bind, Except.bind, pure, Except.pure]
    | ok i =>
      cases i <;> simp [hi, Bind.bind, Except.bind, pure, Except.pure]

/-- C6 witness: the four branches of the cascade at concrete inputs — a
kind mismatch gives `False`; `entities_refined` forces `True` for
unrelated groundings under a no-relation ontology; equal entity keys give
`True`; and with distinct keys the result equals `isa`'s. -/
theorem C6_refinement_cascade_witness :
    Concept.refinement_of ⟨"Event", "a", []⟩ ⟨"Concept", "a", []⟩
        ⟨fun _ _ _ _ => false, fun _ _ _ _ => false⟩ false = .ok false
    ∧ Concept.refinement_of ⟨"Concept", "a", [("WM", .str ("x"))]⟩
        ⟨"Concept", "b", [("UN", .str ("y"))]⟩
        ⟨fun _ _ _ _ => false, fun _ _ _ _ => false⟩ true = .ok true
    ∧ Concept.refinement_of ⟨"Concept", "a", [("WM", .str ("x"))]⟩
        ⟨"Concept", "b", [("WM", .str ("x"))]⟩
        ⟨fun _ _ _ _ => false, fun _ _ _ _ => false⟩ false = .ok true
    ∧ Concept.refinement_of ⟨"Concept", "a", [("WM", .str ("x"))]⟩
        ⟨"Concept", "b", [("UN", .str ("y"))]⟩
        ⟨fun _ _ _ _ => false, fun _ _ _ _ => false⟩ false
      = Concept.isa ⟨"Concept", "a", [("WM", .str ("x"))]⟩
          ⟨"Concept", "b", [("UN", .str ("y"))]⟩
          ⟨fun _ _ _ _ => false, fun _ _ _ _ => false⟩ := by
  refine ⟨(C6_refinement_cascade _ _ _ _).1 (by decide),
    (C6_refinement_cascade _ _ _ _).2.1 rfl rfl,
    (C6_refinement_cascade _ _ _ _).2.2.1 rfl rfl rfl,
    (C6_refinement_cascade _ _ _ _).2.2.2 rfl rfl rfl⟩

/-- C4 counterexample: an ungrounded concept literally named `('WM', 'x')`
(its name being exactly the Python stringification of the tuple) shares
its `matches_key` with a concept grounded to WM:x, although the first
resolves to `(None, None)` and the second to `("WM", "x")`. -/
theorem C4_matches_key_collision :
    (⟨"Concept", pyRepr (.tuple [.str ("WM"), .str ("x")]), []⟩ : Concept).matches_key
      = (⟨"Concept", "b", [("WM", .str ("x"))]⟩ : Concept).matches_key
    ∧ (⟨"Concept", pyRepr (.tuple [.str ("WM"), .str ("x")]), []⟩ : Concept).get_grounding []
      = .ok (.none, .none)
    ∧ (⟨"Concept", "b", [("WM", .str ("x"))]⟩ : Concept).get_grounding []
      = .ok (.str ("WM"), .str ("x")) :=
  ⟨rfl, rfl, rfl⟩

/-- Helper: the data list of a constructed string. -/
theorem mk_data (l : List Char) : (String.mk l).data = l := rfl

/-- Helper: the repr delimiter is always one of the two quote
characters. -/
theorem pyQuote_cases (s : String) : pyQuote s = ('\'') ∨ pyQuote s = ('"') := by
  unfold pyQuote
  split
  · exact Or.inr rfl
  · exact Or.inl rfl

/-- Helper: the escaped body of an empty list is empty. -/
theorem escBody_nil (q : Char) : escBody q [] = [] := rfl

/-- Helper: the escaped body of a cons is the head's escape block followed
by the body of the tail. -/
theorem escBody_cons (q c : Char) (l : List Char) :
    escBody q (c :: l) = pyCharEscape q c ++ escBody q l := by
  simp [escBody]

/-- Helper: a character's escape block has one of three shapes: the bare
character (printable and neither backslash nor the delimiter), a
two-character mnemonic escape, or the four-character hexadecimal
escape. -/
theorem pyCharEscape_shape (q c : Char) :
    (pyCharEscape q c = [c] ∧ c ≠ ('\\') ∧ c ≠ q)
    ∨ (∃ a, pyCharEscape q c = [('\\'), a]
        ∧ ((a = ('\\') ∧ c = ('\\'))
          ∨ (a = q ∧ c = q)
          ∨ (a = ('n') ∧ c = ('\n'))
          ∨ (a = ('r') ∧ c = ('\r'))
          ∨ (a = ('t') ∧ c = ('\t'))))
    ∨ (pyCharEscape q c
          = [('\\'), ('x'), hexDigitChar (c.toNat / 16), hexDigitChar (c.toNat % 16)]
        ∧ (c.toNat < 32 ∨ c.toNat = 127)) := by
  unfold pyCharEscape
  split_ifs with hb hq2 hn hr ht hx
  · exact Or.inr (Or.inl ⟨('\\'), rfl, Or.inl ⟨rfl, hb⟩⟩)
  · exact Or.inr (Or.inl ⟨q, rfl, Or.inr (Or.inl ⟨rfl, hq2⟩)⟩)
  · exact Or.inr (Or.inl ⟨('n'), rfl, Or.inr (Or.inr (Or.inl ⟨rfl, hn⟩))⟩)
  · exact Or.inr (Or.inl ⟨('r'), rfl, Or.inr (Or.inr (Or.inr (Or.inl ⟨rfl, hr⟩)))⟩)
  · exact Or.inr (Or.inl ⟨('t'), rfl, Or.inr (Or.inr (Or.inr (Or.inr ⟨rfl, ht⟩)))⟩)
  · refine Or.inr (Or.inr ⟨rfl, ?_⟩)
    simpa using hx
  · exact Or.inl ⟨rfl, hb, hq2⟩

/-- Helper: no escape block begins with the quote delimiter. -/
theorem pyCharEscape_head_ne (q c : Char) (hq : q = ('\'') ∨ q = ('"')) :
    ∃ a ts, pyCharEscape q c = a :: ts ∧ a ≠ q := by
  rcases pyCharEscape_shape q c with ⟨he, _, hcq⟩ | ⟨a, he, _⟩ | ⟨he, _⟩
  · exact ⟨c, [], he, hcq⟩
  · exact ⟨('\\'), [a], he, by rcases hq with rfl | rfl <;> decide⟩
  · exact ⟨('\\'), _, he, by rcases hq with rfl | rfl <;> decide⟩

/-- Helper: hexadecimal digit characters are pairwise distinct below 16. -/
theorem hexDigitChar_injOn : ∀ m < 16, ∀ n < 16,
    hexDigitChar m = hexDigitChar n → m = n := by decide

/-- Helper: characters with equal code points are equal. -/
theorem char_eq_of_toNat_eq (c d : Char) (h : c.toNat = d.toNat) : c = d :=
  Char.eq_of_val_eq (UInt32.eq_of_toBitVec_eq (BitVec.eq_of_toNat_eq h))

/-- Helper: an escape block at the head of a character stream determines
the escaped character and the rest of the stream (prefix determinism of
the escape code). -/
theorem pyCharEscape_det (q : Char) (hq : q = ('\'') ∨ q = ('"')) (c d : Char)
    (X Y : List Char) (h : pyCharEscape q c ++ X = pyCharEscape q d ++ Y) :
    c = d ∧ X = Y := by
  rcases pyCharEscape_shape q c with ⟨hec, hc1, hc2⟩ | ⟨a, hec, hrowc⟩ | ⟨hec, hcn⟩ <;>
    rcases pyCharEscape_shape q d with ⟨hed, hd1, hd2⟩ | ⟨b, hed, hrowd⟩ | ⟨hed, hdn⟩ <;>
    rw [hec, hed] at h <;>
    simp only [List.cons_append, List.nil_append, List.cons.injEq,
      eq_self_iff_true, true_and] at h
  · exact h
  · exact absurd h.1 hc1
  · exact absurd h.1 hc1
  · exact absurd h.1.symm hd1
  · obtain ⟨hab, hXY⟩ := h
    refine ⟨?_, hXY⟩
    rcases hrowc with ⟨rfl, rfl⟩ | ⟨rfl, rfl⟩ | ⟨rfl, rfl⟩ | ⟨rfl, rfl⟩ | ⟨rfl, rfl⟩ <;>
      rcases hrowd with ⟨rfl, rfl⟩ | ⟨rfl, rfl⟩ | ⟨rfl, rfl⟩ | ⟨rfl, rfl⟩ | ⟨rfl, rfl⟩ <;>
      first
        | rfl
        | (rcases hq with rfl | rfl <;> exact absurd hab (by decide))
  · exfalso
    obtain ⟨hab, -⟩ := h
    rcases hrowc with ⟨rfl, rfl⟩ | ⟨rfl, rfl⟩ | ⟨rfl, rfl⟩ | ⟨rfl, rfl⟩ | ⟨rfl, rfl⟩ <;>
      rcases hq with rfl | rfl <;> exact absurd hab (by decide)
  · exact absurd h.1.symm hd1
  · exfalso
    obtain ⟨hab, -⟩ := h
    rcases hrowd with ⟨rfl, rfl⟩ | ⟨rfl, rfl⟩ | ⟨rfl, rfl⟩ | ⟨rfl, rfl⟩ | ⟨rfl, rfl⟩ <;>
      rcases hq with rfl | rfl <;> exact absurd hab (by decide)
  · obtain ⟨hh1, hh2, hXY⟩ := h
    have e1 : c.toNat / 16 = d.toNat / 16 :=
      hexDigitChar_injOn _ (by omega) _ (by omega) hh1
    have e2 : c.toNat % 16 = d.toNat % 16 :=
      hexDigitChar_injOn _ (by omega) _ (by omega) hh2
    exact ⟨char_eq_of_toNat_eq c d (by omega), hXY⟩

/-- Helper: escaped bodies are uniquely decodable — a stream consisting of
an escaped body followed by the unescaped delimiter determines the body's
source characters and the rest of the stream. -/
theorem escBody_unique (q : Char) (hq : q = ('\'') ∨ q = ('"')) :
    ∀ (s t r1 r2 : List Char),
      escBody q s ++ q :: r1 = escBody q t ++ q :: r2 → s = t ∧ r1 = r2 := by
  intro s
  induction s with
  | nil =>
    intro t r1 r2 h
    cases t with
    | nil =>
      simp only [escBody, List.map_nil, List.flatten_nil, List.nil_append] at h
      injection h with _ h2
      exact ⟨rfl, h2⟩
    | cons d ds =>
      exfalso
      obtain ⟨a, ts, he, haq⟩ := pyCharEscape_head_ne q d hq
      rw [escBody_nil, List.nil_append, escBody_cons, he] at h
      simp only [List.cons_append, List.append_assoc] at h
      injection h with h1 _
      exact haq h1.symm
  | cons c cs ih =>
    intro t r1 r2 h
    cases t with
    | nil =>
      exfalso
      obtain ⟨a, ts, he, haq⟩ := pyCharEscape_head_ne q c hq
      rw [escBody_nil, List.nil_append, escBody_cons, he] at h
      simp only [List.cons_append, List.append_assoc] at h
      injection h with h1 _
      exact haq h1
    | cons d ds =>
      rw [escBody_cons, escBody_cons, List.append_assoc, List.append_assoc] at h
      obtain ⟨rfl, h2⟩ := pyCharEscape_det q hq c d _ _ h
      obtain ⟨h3, h4⟩ := ih ds r1 r2 h2
      exact ⟨by rw [h3], h4⟩

/-- Helper: a namespace returned by the scanning loop is a member of the
scanned order. -/
theorem ground_scan_ns_mem (db : List (String × PyVal)) :
    ∀ (order : List String) (ns : String) (i : PyVal),
      ground_scan db order = .ok (.str ns, i) → ns ∈ order := by
  intro order
  induction order with
  | nil =>
    intro ns i h
    simp [ground_scan] at h
  | cons n rest ih =>
    intro ns i h
    cases hd : dbLookup db n with
    | none =>
      simp only [ground_scan, hd] at h
      exact List.mem_cons_of_mem _ (ih ns i h)
    | some v =>
      cases ht : pyTruthy v with
      | false =>
        simp only [ground_scan, hd, ht, Bool.false_eq_true, if_false] at h
        exact List.mem_cons_of_mem _ (ih ns i h)
      | true =>
        simp only [ground_scan, hd, ht, if_true] at h
        cases he : extractId v with
        | error e => simp [he, Except.map] at h
        | ok ival =>
          simp only [he, Except.map, Except.ok.injEq, Prod.mk.injEq,
            PyVal.str.injEq] at h
          obtain ⟨hns, -⟩ := h
          cases hns
          exact List.mem_cons_self _ _

/-- Helper: a grounding resolved under the default order carries one of the
five known namespaces, which are all non-empty. -/
theorem grounded_ns_ne_empty (c : Concept) (ns : String) (i : PyVal)
    (h : c.get_grounding [] = .ok (.str ns, i)) : ns ≠ "" := by
  have hm : ns ∈ default_ns_order := by
    apply ground_scan_ns_mem c.db_refs default_ns_order ns i
    simpa [Concept.get_grounding] using h
  simp only [default_ns_order, List.mem_cons, List.not_mem_nil, or_false] at hm
  rcases hm with rfl | rfl | rfl | rfl | rfl <;> decide

/-- Helper: `matches_key` of a concept resolved to a grounded
`(namespace, identifier)` pair of strings is the stringified tuple. -/
theorem matches_key_grounded (c : Concept) (ns ident : String)
    (hg : c.get_grounding [] = .ok (.str ns, .str ident)) (hns : ns ≠ "") :
    c.matches_key = .ok ("(" ++ pyReprStr ns ++ ", " ++ pyReprStr ident ++ ")") := by
  have hd : ns.data ≠ [] := by
    intro hd
    apply hns
    cases ns with
    | mk l => cases hd; rfl
  have htr : pyTruthy (.str ns) = true := by
    simp [pyTruthy, List.isEmpty_iff, hd]
  simp only [Concept.matches_key, Concept.entity_matches_key, hg, htr,
    Bind.bind, Except.bind, pure, Except.pure, pyStr, pyRepr, pyReprSep,
    Bool.not_true, Bool.false_and, Bool.false_eq_true, if_false]
  simp only [String.append_assoc]

/-- C4 amended: `matches_key` is injective with respect to distinct
resolved (namespace, identifier) string pairs: Python's repr escaping
makes `str((ns, id))` a uniquely decodable encoding, so equal keys force
equal namespaces and equal identifiers for arbitrary identifier strings.
(The other half of the original claim fails: see the counterexample for
the name/grounding collision.) -/
theorem C4_matches_key_injective (c1 c2 : Concept)
    (ns1 id1 ns2 id2 : String)
    (h1 : c1.get_grounding [] = .ok (.str ns1, .str id1))
    (h2 : c2.get_grounding [] = .ok (.str ns2, .str id2))
    (hkey : c1.matches_key = c2.matches_key) :
    ns1 = ns2 ∧ id1 = id2 := by
  have hns1 : ns1 ≠ "" := grounded_ns_ne_empty c1 ns1 _ h1
  have hns2 : ns2 ≠ "" := grounded_ns_ne_empty c2 ns2 _ h2
  rw [matches_key_grounded c1 ns1 id1 h1 hns1,
    matches_key_grounded c2 ns2 id2 h2 hns2] at hkey
  simp only [Except.ok.injEq] at hkey
  have hdata := congrArg String.data hkey
  simp only [String.data_append, pyReprStr, mk_data] at hdata
  simp only [List.cons_append, List.nil_append, List.append_assoc] at hdata
  injection hdata with h0 hdata
  injection hdata with hqn hdata
  rw [← hqn] at hdata
  obtain ⟨hnsd, hrest⟩ := escBody_unique (pyQuote ns1) (pyQuote_cases ns1)
    ns1.data ns2.data _ _ hdata
  injection hrest with _ hrest
  injection hrest with _ hrest
  injection hrest with hqi hrest
  rw [← hqi] at hrest
  obtain ⟨hidd, -⟩ := escBody_unique (pyQuote id1) (pyQuote_cases id1)
    id1.data id2.data _ _ hrest
  exact ⟨congrArg String.mk hnsd, congrArg String.mk hidd⟩

/-- C4 amendment witness: injectivity applied at a concrete pair whose
identifier contains a single quote, so its repr switches to double-quote
delimiters and exercises the escaped encoding. -/
theorem C4_matches_key_injective_witness :
    ("WM" : String) = "WM" ∧
      (String.mk [('x'), ('\''), ('y')]) = String.mk [('x'), ('\''), ('y')] :=
  C4_matches_key_injective
    ⟨"Concept", "n1", [("WM", .str (String.mk [('x'), ('\''), ('y')]))]⟩
    ⟨"Concept", "n2", [("WM", .str (String.mk [('x'), ('\''), ('y')]))]⟩
    "WM" (String.mk [('x'), ('\''), ('y')]) "WM" (String.mk [('x'), ('\''), ('y')])
    rfl rfl rfl

end Indra
